import Mathlib

/-!
Verification of the economic-news worker pipeline: event ingestion
(`fetch-news.job.ts`), temporal alert scanning and dispatch
(`send-alerts.job.ts`), and the news-event fingerprint helper.

Timestamps are modelled as `Int` seconds since the Unix epoch.  A "naive"
timestamp is such a value read as literal wall-clock digits (the database
stores the New-York wall-clock digits reinterpreted as UTC).  Calendar
conversions follow the proleptic Gregorian calendar, as implemented by the
`dayjs` library used in the source.
-/

/-- Days since 1970-01-01 of a civil (proleptic Gregorian) date,
    era-based algorithm. -/
def daysFromCivil (y : Int) (m d : Nat) : Int :=
  (if m ≤ 2 then y - 1 else y) / 400 * 146097 +
    (((if m ≤ 2 then y - 1 else y) -
        (if m ≤ 2 then y - 1 else y) / 400 * 400).toNat * 365 +
      ((if m ≤ 2 then y - 1 else y) -
        (if m ≤ 2 then y - 1 else y) / 400 * 400).toNat / 4 -
      ((if m ≤ 2 then y - 1 else y) -
        (if m ≤ 2 then y - 1 else y) / 400 * 400).toNat / 100 +
      ((153 * (if m > 2 then m - 3 else m + 9) + 2) / 5 + d - 1) : Nat) - 719468

/-- Year-of-era in [0,399] from day-of-era in [0,146096]
    (adjusted-division form of the standard extraction). -/
def yoeFromDoe (doe : Nat) : Nat :=
  if 365 * (doe / 366 + 1) + (doe / 366 + 1) / 4 - (doe / 366 + 1) / 100 ≤ doe ∧
      doe / 366 < 399
  then doe / 366 + 1 else doe / 366

/-- March-based day-of-year from day-of-era. -/
def doyFromDoe (doe : Nat) : Nat :=
  doe - (365 * yoeFromDoe doe + yoeFromDoe doe / 4 - yoeFromDoe doe / 100)

/-- March-based month index in [0,11] from day-of-year. -/
def mpFromDoy (doy : Nat) : Nat := (5 * doy + 2) / 153

/-- Day-of-month from day-of-year. -/
def dayFromDoy (doy : Nat) : Nat := doy - (153 * mpFromDoy doy + 2) / 5 + 1

/-- Civil month in [1,12] from day-of-year. -/
def monthFromDoy (doy : Nat) : Nat :=
  if mpFromDoy doy < 10 then mpFromDoy doy + 3 else mpFromDoy doy - 9

/-- Civil date (year, month, day) from days since 1970-01-01. -/
def civilFromDays (z : Int) : Int × Nat × Nat :=
  ((if monthFromDoy (doyFromDoe ((z + 719468) % 146097).toNat) ≤ 2
    then (yoeFromDoe ((z + 719468) % 146097).toNat : Int) + (z + 719468) / 146097 * 400 + 1
    else (yoeFromDoe ((z + 719468) % 146097).toNat : Int) + (z + 719468) / 146097 * 400),
   monthFromDoy (doyFromDoe ((z + 719468) % 146097).toNat),
   dayFromDoy (doyFromDoe ((z + 719468) % 146097).toNat))

theorem yoeFromDoe_spec (doe : Nat) (h : doe < 146097) :
    yoeFromDoe doe ≤ 399 ∧
    365 * yoeFromDoe doe + yoeFromDoe doe / 4 - yoeFromDoe doe / 100 ≤ doe ∧
    doe - (365 * yoeFromDoe doe + yoeFromDoe doe / 4 - yoeFromDoe doe / 100) ≤ 365 := by
  unfold yoeFromDoe
  split <;> omega

theorem doy_refold (doy : Nat) (h : doy ≤ 365) :
    (153 * (if monthFromDoy doy > 2 then monthFromDoy doy - 3
            else monthFromDoy doy + 9) + 2) / 5 + dayFromDoy doy - 1 = doy := by
  unfold monthFromDoy dayFromDoy mpFromDoy
  by_cases hc : (5 * doy + 2) / 153 < 10
  · simp only [if_pos hc]
    have h3 : (5 * doy + 2) / 153 + 3 > 2 := by omega
    simp only [if_pos h3]
    omega
  · simp only [if_neg hc]
    have h2 : ¬ ((5 * doy + 2) / 153 - 9 > 2) := by omega
    simp only [if_neg h2]
    omega

/-- Round trip: converting days since epoch to a civil date and back is the
    identity. -/
theorem daysFromCivil_civilFromDays (z : Int) :
    daysFromCivil (civilFromDays z).1 (civilFromDays z).2.1 (civilFromDays z).2.2 = z := by
  have hdoelt : ((z + 719468) % 146097).toNat < 146097 := by omega
  obtain ⟨hy1, hy2, hy3⟩ := yoeFromDoe_spec ((z + 719468) % 146097).toNat hdoelt
  have hdoy := doy_refold (doyFromDoe ((z + 719468) % 146097).toNat)
    (by unfold doyFromDoe; omega)
  have hsum : 365 * yoeFromDoe ((z + 719468) % 146097).toNat +
      yoeFromDoe ((z + 719468) % 146097).toNat / 4 -
      yoeFromDoe ((z + 719468) % 146097).toNat / 100 +
      doyFromDoe ((z + 719468) % 146097).toNat = ((z + 719468) % 146097).toNat := by
    unfold doyFromDoe
    omega
  unfold civilFromDays daysFromCivil
  by_cases hm2 : monthFromDoy (doyFromDoe ((z + 719468) % 146097).toNat) ≤ 2
  · simp only [if_pos hm2]
    have hgt : ¬ (monthFromDoy (doyFromDoe ((z + 719468) % 146097).toNat) > 2) := by omega
    simp only [if_neg hgt] at hdoy ⊢
    have hadd : ((yoeFromDoe ((z + 719468) % 146097).toNat : Int) +
        (z + 719468) / 146097 * 400 + 1 - 1) =
        ((yoeFromDoe ((z + 719468) % 146097).toNat : Int) + (z + 719468) / 146097 * 400) := by
      ring
    rw [hadd]
    have hdiv : ((yoeFromDoe ((z + 719468) % 146097).toNat : Int) +
        (z + 719468) / 146097 * 400) / 400 = (z + 719468) / 146097 := by omega
    rw [hdiv, add_sub_cancel_right, Int.toNat_natCast]
    omega
  · simp only [if_neg hm2]
    have hgt : monthFromDoy (doyFromDoe ((z + 719468) % 146097).toNat) > 2 := by omega
    simp only [if_pos hgt] at hdoy ⊢
    have hdiv : ((yoeFromDoe ((z + 719468) % 146097).toNat : Int) +
        (z + 719468) / 146097 * 400) / 400 = (z + 719468) / 146097 := by omega
    rw [hdiv, add_sub_cancel_right, Int.toNat_natCast]
    omega

/-- Wall-clock components of a timestamp: year, month, day,
    hour, minute, second. -/
structure DateTime where
  year : Int
  month : Nat
  day : Nat
  hour : Nat
  minute : Nat
  second : Nat
deriving DecidableEq, Repr

/-- Seconds since epoch of wall-clock components read as UTC
    (the semantics of parsing a formatted string with `dayjs.utc`). -/
def toSecs (d : DateTime) : Int :=
  daysFromCivil d.year d.month d.day * 86400 +
    (d.hour * 3600 + d.minute * 60 + d.second : Nat)

/-- Wall-clock components of an epoch-seconds value read as UTC
    (the semantics of formatting with a UTC-tagged `dayjs`). -/
def ofSecs (t : Int) : DateTime :=
  ⟨(civilFromDays (t / 86400)).1, (civilFromDays (t / 86400)).2.1,
   (civilFromDays (t / 86400)).2.2,
   (t % 86400).toNat / 3600, (t % 86400).toNat % 3600 / 60, (t % 86400).toNat % 60⟩

/-- Formatting the components of an instant and reinterpreting them as UTC
    recovers the instant. -/
theorem toSecs_ofSecs (t : Int) : toSecs (ofSecs t) = t := by
  unfold toSecs ofSecs
  simp only
  rw [daysFromCivil_civilFromDays]
  omega

example : ofSecs 1763329500 = ⟨2025, 11, 16, 21, 45, 0⟩ := by decide
example : toSecs ⟨2025, 11, 16, 16, 45, 0⟩ = 1763311500 := by decide
example : ofSecs 0 = ⟨1970, 1, 1, 0, 0, 0⟩ := by decide
example : ofSecs (-1) = ⟨1969, 12, 31, 23, 59, 59⟩ := by decide
example : ofSecs 1741613100 = ⟨2025, 3, 10, 13, 25, 0⟩ := by decide

/-- Day of week with 0 = Sunday, from days since epoch (1970-01-01 was a
    Thursday). -/
def dayOfWeek (days : Int) : Nat := ((days + 4) % 7).toNat

/-- First Sunday on or after the given day. -/
def firstSundayOnOrAfter (days : Int) : Int := days + (7 - (days + 4) % 7) % 7

/-- Day number of the second Sunday of March (US DST start day). -/
def secondSundayOfMarch (y : Int) : Int := firstSundayOnOrAfter (daysFromCivil y 3 8)

/-- Day number of the first Sunday of November (US DST end day). -/
def firstSundayOfNovember (y : Int) : Int := firstSundayOnOrAfter (daysFromCivil y 11 1)

/-- Instant (UTC seconds) at which DST starts in the given year:
    2:00 EST on the second Sunday of March, i.e. 07:00 UTC. -/
def dstStartUtc (y : Int) : Int := secondSundayOfMarch y * 86400 + 7 * 3600

/-- Instant (UTC seconds) at which DST ends in the given year:
    2:00 EDT on the first Sunday of November, i.e. 06:00 UTC. -/
def dstEndUtc (y : Int) : Int := firstSundayOfNovember y * 86400 + 6 * 3600

/-- UTC offset of the America/New_York timezone, in seconds, at a given
    instant: -4h during daylight saving, -5h otherwise (post-2007 US rules,
    the tz database rules `dayjs.tz` applies for modern dates). -/
def nyOffsetSecs (t : Int) : Int :=
  if dstStartUtc (civilFromDays (t / 86400)).1 ≤ t ∧
      t < dstEndUtc (civilFromDays (t / 86400)).1
  then -14400 else -18000

example : secondSundayOfMarch 2025 = 20156 := by decide
example : firstSundayOfNovember 2025 = 20394 := by decide
example : nyOffsetSecs 1763329500 = -18000 := by decide
example : nyOffsetSecs 1752000000 = -14400 := by decide

/-- Left zero-pad a natural number to two digits. -/
def pad2 (n : Nat) : String := if n < 10 then "0" ++ toString n else toString n

/-- Left zero-pad a year to four digits (years of interest are in
    [1000, 9999], where this is plain decimal notation). -/
def pad4 (y : Int) : String :=
  if y < 10 then "000" ++ toString y
  else if y < 100 then "00" ++ toString y
  else if y < 1000 then "0" ++ toString y
  else toString y

/-- The `dayjs` format string `YYYY-MM-DD HH:mm:ss` applied to wall-clock
    components. -/
def formatNaive (d : DateTime) : String :=
  pad4 d.year ++ "-" ++ pad2 d.month ++ "-" ++ pad2 d.day ++ " " ++
    pad2 d.hour ++ ":" ++ pad2 d.minute ++ ":" ++ pad2 d.second

/-- JavaScript `Date.prototype.toISOString` on a whole-second instant. -/
def formatISO (t : Int) : String :=
  pad4 (ofSecs t).year ++ "-" ++ pad2 (ofSecs t).month ++ "-" ++
    pad2 (ofSecs t).day ++ "T" ++ pad2 (ofSecs t).hour ++ ":" ++
    pad2 (ofSecs t).minute ++ ":" ++ pad2 (ofSecs t).second ++ ".000Z"

example : formatNaive ⟨2025, 11, 16, 16, 45, 0⟩ = "2025-11-16 16:45:00" := by decide

/-- The instant denoted by a provider timestamp string carrying wall-clock
    components and an explicit UTC offset in minutes
    (e.g. `2025-11-16T16:45:00-05:00` is `wall = 2025-11-16 16:45:00`,
    `offsetMinutes = -300`). -/
def parseOffsetTimestamp (wall : DateTime) (offsetMinutes : Int) : Int :=
  toSecs wall - offsetMinutes * 60

/-- Lines 75-82 of `fetch-news.job.ts`: resolve the parsed instant in the
    America/New_York timezone (`dayjs(newsItem.date).tz("America/New_York")`),
    format its wall-clock components (`format('YYYY-MM-DD HH:mm:ss')`), and
    reinterpret them as UTC (`dayjs.utc(timeString).toDate()`).  The result is
    the naive timestamp stored in the `date` column.  No input describing the
    time the job runs occurs here: the offset is resolved at the event's own
    instant. -/
def normalizeToNaiveNY (t : Int) : Int := toSecs (ofSecs (t + nyOffsetSecs t))

/-- Modelled from the spec: "the New-York local wall-clock components of that
    instant" — the local wall clock of an instant in a zone is the instant
    shifted by the zone's offset at that instant, read as components. -/
def nyLocalWallClock (t : Int) : DateTime := ofSecs (t + nyOffsetSecs t)

/-- Zero the seconds component of wall-clock components (`startOf("minute")`
    combined with the `HH:mm:00` format used by the scanner). -/
def zeroSecond (d : DateTime) : DateTime :=
  ⟨d.year, d.month, d.day, d.hour, d.minute, 0⟩

/-- Lines 44-47 and 75-78 of `send-alerts.job.ts`, common core: the scanner
    takes an instant, views it in the *process-local* timezone (`dayjs()`
    with no `.tz(...)` call), truncates to the minute, formats
    `YYYY-MM-DD HH:mm:00`, and reparses as UTC (`dayjs.utc(timeString)`).
    `procOffsetSecs` is the process timezone's offset function. -/
def scannerNaiveTarget (t : Int) (procOffsetSecs : Int → Int) : Int :=
  toSecs (zeroSecond (ofSecs (t + procOffsetSecs t)))

/-- Lines 44-47 of `send-alerts.job.ts`: the five-minute window target,
    `dayjs().add(5, "minutes").startOf("minute")` formatted and reparsed. -/
def scannerFiveMinTarget (now : Int) (procOffsetSecs : Int → Int) : Int :=
  scannerNaiveTarget (now + 300) procOffsetSecs

/-- Lines 75-78 of `send-alerts.job.ts`: the on-drop window target,
    `dayjs().startOf("minute")` formatted and reparsed. -/
def scannerOnDropTarget (now : Int) (procOffsetSecs : Int → Int) : Int :=
  scannerNaiveTarget now procOffsetSecs

/-- The two-step ingestion normalization applied to an instant and truncated
    to the minute: what the spec says the scanner compares against storage. -/
def nyNaiveMinute (t : Int) : Int := toSecs (zeroSecond (ofSecs (t + nyOffsetSecs t)))

/-- Truncating the naive value to a whole minute at the component level is
    subtraction of the seconds remainder at the instant level. -/
theorem scannerNaiveTarget_eq (t : Int) (off : Int → Int) :
    scannerNaiveTarget t off = t + off t - (t + off t) % 60 := by
  unfold scannerNaiveTarget zeroSecond toSecs ofSecs
  simp only
  rw [daysFromCivil_civilFromDays]
  omega

/-- Modelled from the spec: the internal `Impact` enum of `@repo/api` is not
    under `src/`; the spec (§3) fixes its values as HIGH/MEDIUM/LOW. -/
inductive Impact
  | HIGH
  | MEDIUM
  | LOW
deriving DecidableEq, Repr

/-- Modelled from the spec: the internal `Currency` enum of `@repo/api` is not
    under `src/`; the spec (§3) describes it as an ISO-ish currency/country
    code enum.  A representative set of members is used; the claims depend
    only on membership tests, not on the exact roster. -/
inductive Currency
  | USD
  | EUR
  | GBP
  | JPY
  | AUD
  | CAD
  | CHF
  | NZD
  | CNY
deriving DecidableEq, Repr

/-- The two alert classes, from the union type in `send-alerts.job.ts`. -/
inductive AlertType
  | FIVE_MINUTES_BEFORE
  | ON_NEWS_DROP
deriving DecidableEq, Repr

def impactToString : Impact → String
  | .HIGH => "HIGH"
  | .MEDIUM => "MEDIUM"
  | .LOW => "LOW"

def currencyToString : Currency → String
  | .USD => "USD"
  | .EUR => "EUR"
  | .GBP => "GBP"
  | .JPY => "JPY"
  | .AUD => "AUD"
  | .CAD => "CAD"
  | .CHF => "CHF"
  | .NZD => "NZD"
  | .CNY => "CNY"

def alertTypeToString : AlertType → String
  | .FIVE_MINUTES_BEFORE => "FIVE_MINUTES_BEFORE"
  | .ON_NEWS_DROP => "ON_NEWS_DROP"

/-- ASCII uppercasing of one character (the behavior of JavaScript
    `toUpperCase` on the provider's ASCII enum strings). -/
def asciiUpperChar (c : Char) : Char :=
  if 'a' ≤ c ∧ c ≤ 'z' then Char.ofNat (c.toNat - 32) else c

/-- ASCII uppercasing of a string. -/
def asciiUpper (s : String) : String := ⟨s.data.map asciiUpperChar⟩

/-- The `Object.values(Currency).includes(country.toUpperCase())` check of
    `fetch-news.job.ts` lines 59-67, as a parse-with-validation step. -/
def parseCurrencyStr (s : String) : Option Currency :=
  if asciiUpper s = "USD" then some .USD
  else if asciiUpper s = "EUR" then some .EUR
  else if asciiUpper s = "GBP" then some .GBP
  else if asciiUpper s = "JPY" then some .JPY
  else if asciiUpper s = "AUD" then some .AUD
  else if asciiUpper s = "CAD" then some .CAD
  else if asciiUpper s = "CHF" then some .CHF
  else if asciiUpper s = "NZD" then some .NZD
  else if asciiUpper s = "CNY" then some .CNY
  else none

/-- Validity of `newsItem.impact.toUpperCase()` against the `Impact` database
    enum.  `fetch-news.job.ts` line 60 casts without checking; an unknown
    value is rejected by the database at the upsert, which throws inside the
    per-item try block. -/
def parseImpactStr (s : String) : Option Impact :=
  if asciiUpper s = "HIGH" then some .HIGH
  else if asciiUpper s = "MEDIUM" then some .MEDIUM
  else if asciiUpper s = "LOW" then some .LOW
  else none

/-- A row of the `NewsEvent` table (schema: unique on
    (title, date, impact, currency); `actual` nullable; `isProcessed`
    defaulting to false on creation, per spec §3 lifecycle). -/
structure NewsEvent where
  id : String
  title : String
  currency : Currency
  date : Int
  impact : Impact
  forecast : String
  previous : String
  actual : Option String
  isProcessed : Bool
  source : String
deriving DecidableEq, Repr

/-- The `title_date_impact_currency` unique-constraint selector of the
    Prisma upsert (`fetch-news.job.ts` lines 86-93). -/
def identityMatches (e : NewsEvent) (title : String) (date : Int)
    (impact : Impact) (currency : Currency) : Bool :=
  decide (e.title = title ∧ e.date = date ∧ e.impact = impact ∧ e.currency = currency)

/-- `prisma.newsEvent.upsert` of `fetch-news.job.ts` lines 85-108: if a row
    with the identity tuple exists, update only `forecast` and `previous`
    (never `actual` or `isProcessed`); otherwise create a row with the given
    data, a null `actual`, an unprocessed flag and source "ForexFactory".
    `newId` models the database-generated id of a created row. -/
def upsertNewsEvent (db : List NewsEvent) (title : String) (date : Int)
    (impact : Impact) (currency : Currency) (forecast previous : String)
    (newId : String) : List NewsEvent :=
  if db.any (fun e => identityMatches e title date impact currency) then
    db.map (fun e =>
      if identityMatches e title date impact currency then
        { e with forecast := forecast, previous := previous }
      else e)
  else
    db ++ [⟨newId, title, currency, date, impact, forecast, previous,
           none, false, "ForexFactory"⟩]

/-- At most one row per identity tuple (the unique constraint the store
    maintains). -/
def uniqueByIdentity (db : List NewsEvent) : Prop :=
  List.Pairwise (fun a b => ¬ (a.title = b.title ∧ a.date = b.date ∧
    a.impact = b.impact ∧ a.currency = b.currency)) db

/-- `prisma.newsEvent.findMany({ where: { date: targetTime } })` of
    `send-alerts.job.ts` lines 52-56: events whose stored naive timestamp
    equals the five-minute window target. -/
def fiveMinuteEvents (db : List NewsEvent) (now : Int)
    (procOffsetSecs : Int → Int) : List NewsEvent :=
  db.filter (fun e => e.date == scannerFiveMinTarget now procOffsetSecs)

/-- `prisma.newsEvent.findMany({ where: { date: targetTime } })` of
    `send-alerts.job.ts` lines 83-87: events whose stored naive timestamp
    equals the on-drop window target. -/
def onDropEvents (db : List NewsEvent) (now : Int)
    (procOffsetSecs : Int → Int) : List NewsEvent :=
  db.filter (fun e => e.date == scannerOnDropTarget now procOffsetSecs)

/-- A row of the `NewsAlert` table: a subscription with its target channel
    and filter arrays. -/
structure NewsAlertConfig where
  serverId : String
  channelId : String
  currency : List Currency
  impact : List Impact
  alertType : List AlertType
deriving DecidableEq, Repr

/-- `send-alerts.job.ts` lines 123-149: query the subscriptions whose
    `alertType` array has the fired class, then keep those whose currency
    filter is empty or contains the event's currency and whose impact filter
    is empty or contains the event's impact. -/
def matchingAlertConfigs (allConfigs : List NewsAlertConfig)
    (alertType : AlertType) (eventCurrency : Currency) (eventImpact : Impact) :
    List NewsAlertConfig :=
  (allConfigs.filter (fun c => c.alertType.contains alertType)).filter
    (fun c =>
      (c.currency.isEmpty || c.currency.contains eventCurrency) &&
      (c.impact.isEmpty || c.impact.contains eventImpact))

/-- The in-memory dispatch key, `` `${event.id}-${alertType}` ``
    (`send-alerts.job.ts` line 114). -/
def alertKey (e : NewsEvent) (alertType : AlertType) : String :=
  e.id ++ "-" ++ alertTypeToString alertType

/-- `cleanupSentAlerts` (`send-alerts.job.ts` lines 186-192): clear the
    whole sent-alerts cache once it tracks more than 1000 keys. -/
def cleanupSentAlerts (sentAlerts : List String) : List String :=
  if sentAlerts.length > 1000 then [] else sentAlerts

/-- One published message, as the JSON object literal passed to
    `messageBroker.publishNewsAlert` (`send-alerts.job.ts` lines 163-173),
    with its field names. -/
def buildAlertPayload (e : NewsEvent) (alertType : AlertType)
    (config : NewsAlertConfig) : List (String × String) :=
  [("title", e.title),
   ("country", currencyToString e.currency),
   ("impact", impactToString e.impact),
   ("date", formatISO e.date),
   ("forecast", e.forecast),
   ("previous", e.previous),
   ("alertType", alertTypeToString alertType),
   ("channelId", config.channelId),
   ("serverId", config.serverId)]

/-- The publish loop over the matched configurations
    (`send-alerts.job.ts` lines 162-174).  `publishFails i` says whether the
    i-th publish call throws; messages published before the first failure have
    already gone out.  Returns the published payloads and whether the whole
    loop completed without throwing. -/
def publishLoop (payloads : List (List (String × String)))
    (publishFails : Nat → Bool) (i : Nat) :
    List (List (String × String)) × Bool :=
  match payloads with
  | [] => ([], true)
  | p :: rest =>
    if publishFails i then ([], false)
    else ((publishLoop rest publishFails (i + 1)).1.cons p,
          (publishLoop rest publishFails (i + 1)).2)

/-- The state and output of one `sendAlert` call. -/
structure SendAlertResult where
  sentAlerts : List String
  published : List (List (String × String))
deriving DecidableEq, Repr

/-- `sendAlert` (`send-alerts.job.ts` lines 108-184).  The whole body is in a
    try/catch whose catch only logs, so a throw anywhere (modelled by
    `queryFails` for the subscription query and `publishFails` for each
    publish call) leaves the in-memory state unchanged.  On the success path
    the key is added to the cache only after every publish returned, and the
    bounded-size cleanup runs last. -/
def sendAlert (sentAlerts : List String) (allConfigs : List NewsAlertConfig)
    (queryFails : Bool) (publishFails : Nat → Bool)
    (e : NewsEvent) (alertType : AlertType) : SendAlertResult :=
  if sentAlerts.contains (alertKey e alertType) then ⟨sentAlerts, []⟩
  else if queryFails then ⟨sentAlerts, []⟩
  else
    if (matchingAlertConfigs allConfigs alertType e.currency e.impact).isEmpty
    then ⟨sentAlerts, []⟩
    else
      if (publishLoop ((matchingAlertConfigs allConfigs alertType e.currency
            e.impact).map (buildAlertPayload e alertType)) publishFails 0).2
      then ⟨cleanupSentAlerts (sentAlerts ++ [alertKey e alertType]),
            (publishLoop ((matchingAlertConfigs allConfigs alertType e.currency
              e.impact).map (buildAlertPayload e alertType)) publishFails 0).1⟩
      else ⟨sentAlerts,
            (publishLoop ((matchingAlertConfigs allConfigs alertType e.currency
              e.impact).map (buildAlertPayload e alertType)) publishFails 0).1⟩

/-- A raw event record from the provider (spec §6): title, country string,
    an offset-aware timestamp (wall-clock components plus explicit UTC offset
    in minutes), impact string, optional forecast/previous.  `newId` models
    the database-generated row id used if the item creates a row. -/
structure RawNewsItem where
  title : String
  country : String
  dateWall : DateTime
  dateOffsetMinutes : Int
  impact : String
  forecast : Option String
  previous : Option String
  newId : String

/-- The body of the per-item try block of `fetch-news.job.ts` lines 57-112:
    validate the currency (lines 59-67: invalid means skip, no throw),
    normalize the timestamp (lines 69-82), and upsert (lines 85-108, which
    throws — `Except.error` — when the unchecked impact cast does not match
    the database enum).  `Except.ok (db, created?)` gives the new store and
    whether the item was upserted rather than skipped. -/
def storeNewsItemBody (db : List NewsEvent) (item : RawNewsItem) :
    Except String (List NewsEvent × Bool) :=
  match parseCurrencyStr item.country with
  | none => .ok (db, false)
  | some currency =>
    match parseImpactStr item.impact with
    | none => .error "invalid input value for enum Impact"
    | some impact =>
      .ok (upsertNewsEvent db item.title
            (normalizeToNaiveNY
              (parseOffsetTimestamp item.dateWall item.dateOffsetMinutes))
            impact currency (item.forecast.getD "") (item.previous.getD "")
            item.newId, true)

/-- The per-item loop of `fetch-news.job.ts` lines 56-117: each item's body
    runs inside a try/catch whose catch logs and counts the item as skipped,
    so no exception escapes an item and the loop is a total function.
    Returns (store, created count, skipped count). -/
def fetchLoop (db : List NewsEvent) (items : List RawNewsItem) :
    List NewsEvent × Nat × Nat :=
  match items with
  | [] => (db, 0, 0)
  | item :: rest =>
    match storeNewsItemBody db item with
    | .ok (db2, true) =>
      ((fetchLoop db2 rest).1, (fetchLoop db2 rest).2.1 + 1, (fetchLoop db2 rest).2.2)
    | .ok (db2, false) =>
      ((fetchLoop db2 rest).1, (fetchLoop db2 rest).2.1, (fetchLoop db2 rest).2.2 + 1)
    | .error _ =>
      ((fetchLoop db rest).1, (fetchLoop db rest).2.1, (fetchLoop db rest).2.2 + 1)

/-- The store state after processing a list of items, ignoring counts. -/
def upsertAll (db : List NewsEvent) (items : List RawNewsItem) : List NewsEvent :=
  match items with
  | [] => db
  | item :: rest =>
    match storeNewsItemBody db item with
    | .ok (db2, _) => upsertAll db2 rest
    | .error _ => upsertAll db rest

/-- An item both of whose enum strings map to known internal values. -/
def itemMaps (item : RawNewsItem) : Prop :=
  (parseCurrencyStr item.country).isSome ∧ (parseImpactStr item.impact).isSome

instance (item : RawNewsItem) : Decidable (itemMaps item) := by
  unfold itemMaps
  infer_instance

/-- The hash input of `generateNewsEventHash`
    (`` `${title}|${date}|${impact}|${currency}` ``); the digest is the pure
    SHA-256 of this string, so digests coincide exactly when these inputs do. -/
def newsEventHashInput (title date impact currency : String) : String :=
  title ++ "|" ++ date ++ "|" ++ impact ++ "|" ++ currency

theorem string_eq_of_data_eq {s t : String} (h : s.data = t.data) : s = t := by
  cases s; cases t; simp only at h; rw [h]

/-- C2: for every provider timestamp carrying wall-clock components and an
    explicit UTC offset, the naive timestamp stored by the ingestion job has
    formatted wall-clock components equal to the New-York local wall-clock
    components of the denoted instant.  The normalization
    (`normalizeToNaiveNY`) takes no input describing the time the job runs,
    so the result is independent of the daylight-saving state at scan time;
    the second conjunct checks the spec's concrete example
    `2025-11-16T16:45:00-05:00` end to end. -/
theorem timestamp_normalization_roundtrip (wall : DateTime) (offsetMinutes : Int) :
    formatNaive (ofSecs (normalizeToNaiveNY
        (parseOffsetTimestamp wall offsetMinutes))) =
      formatNaive (nyLocalWallClock (parseOffsetTimestamp wall offsetMinutes)) ∧
    formatNaive (ofSecs (normalizeToNaiveNY
        (parseOffsetTimestamp ⟨2025, 11, 16, 16, 45, 0⟩ (-300)))) =
      "2025-11-16 16:45:00" := by
  constructor
  · unfold normalizeToNaiveNY nyLocalWallClock
    rw [toSecs_ofSecs]
  · decide

/-- C3 counterexample: at the instant 2025-11-16T21:45:00Z, a scanner process
    whose local timezone is UTC (offset function constantly 0) constructs an
    on-drop comparison timestamp that differs from the value produced by the
    ingestion-side two-step New-York normalization of the same instant, so
    the scanner's query value does not agree with the stored naive
    representation independent of the process's local timezone. -/
theorem scanner_target_not_normalization_counterexample :
    scannerOnDropTarget 1763329500 (fun _ => 0) ≠ nyNaiveMinute 1763329500 := by
  decide

/-- C3 amended: the scanner builds its window targets from the process-local
    wall clock (`dayjs()` with no `.tz("America/New_York")`), so its
    comparison timestamps equal the ingestion-side two-step normalization of
    "now" (respectively "now + 5 minutes") exactly when the process's local
    timezone is America/New_York, not for every process timezone. -/
theorem scanner_target_matches_normalization_in_ny_tz (now : Int) :
    scannerOnDropTarget now nyOffsetSecs = nyNaiveMinute now ∧
    scannerFiveMinTarget now nyOffsetSecs = nyNaiveMinute (now + 300) :=
  ⟨rfl, rfl⟩

/-- C5: a subscription is selected for dispatch iff its alert-class filter
    contains the fired class, its currency filter is empty or contains the
    event's currency, and its impact filter is empty or contains the event's
    impact — and nothing else (membership in the input list apart); in
    particular a subscription with both filters empty matches every event. -/
theorem alert_matching_characterization (allConfigs : List NewsAlertConfig)
    (alertType : AlertType) (cur : Currency) (imp : Impact)
    (c : NewsAlertConfig) :
    c ∈ matchingAlertConfigs allConfigs alertType cur imp ↔
      c ∈ allConfigs ∧ alertType ∈ c.alertType ∧
      (c.currency = [] ∨ cur ∈ c.currency) ∧
      (c.impact = [] ∨ imp ∈ c.impact) := by
  unfold matchingAlertConfigs
  simp only [List.mem_filter, Bool.and_eq_true, Bool.or_eq_true,
    List.isEmpty_iff, List.contains_iff_exists_mem_beq, beq_iff_eq]
  constructor
  · rintro ⟨⟨hmem, ⟨a, ha, rfl⟩⟩, ⟨hcur, himp⟩⟩
    refine ⟨hmem, ha, ?_, ?_⟩
    · rcases hcur with h | ⟨a, ha2, rfl⟩
      · exact Or.inl h
      · exact Or.inr ha2
    · rcases himp with h | ⟨a, ha2, rfl⟩
      · exact Or.inl h
      · exact Or.inr ha2
  · rintro ⟨hmem, ha, hcur, himp⟩
    refine ⟨⟨hmem, ⟨alertType, ha, rfl⟩⟩, ?_, ?_⟩
    · rcases hcur with h | h
      · exact Or.inl h
      · exact Or.inr ⟨cur, h, rfl⟩
    · rcases himp with h | h
      · exact Or.inl h
      · exact Or.inr ⟨imp, h, rfl⟩

/-- C9 counterexample: the separator `|` can occur inside a field (titles are
    free provider text), so two distinct field tuples produce the same hash
    input — a field-confusion collision between title "FOMC|2025" with
    timestamp "x" and title "FOMC" with timestamp "2025|x". -/
theorem hash_input_field_confusion_counterexample :
    newsEventHashInput "FOMC|2025" "x" "HIGH" "USD" =
      newsEventHashInput "FOMC" "2025|x" "HIGH" "USD" ∧
    ("FOMC|2025", "x") ≠ ("FOMC", "2025|x") := by
  constructor
  · decide
  · decide

/-- Splitting at a separator character absent from both left parts is
    unambiguous. -/
theorem append_sep_cancel {l1 r1 l2 r2 : List Char}
    (h1 : '|' ∉ l1) (h2 : '|' ∉ l2)
    (h : l1 ++ '|' :: r1 = l2 ++ '|' :: r2) : l1 = l2 ∧ r1 = r2 := by
  induction l1 generalizing l2 with
  | nil =>
    cases l2 with
    | nil => simpa using h
    | cons b bs =>
      simp only [List.nil_append, List.cons_append, List.cons.injEq] at h
      exact absurd (h.1 ▸ List.mem_cons_self b bs) h2
  | cons a as ih =>
    cases l2 with
    | nil =>
      simp only [List.cons_append, List.nil_append, List.cons.injEq] at h
      exact absurd (h.1.symm ▸ List.mem_cons_self a as) h1
    | cons b bs =>
      simp only [List.cons_append, List.cons.injEq] at h
      have has : '|' ∉ as := fun hm => h1 (List.mem_cons_of_mem a hm)
      have hbs : '|' ∉ bs := fun hm => h2 (List.mem_cons_of_mem b hm)
      obtain ⟨heq, hr⟩ := ih has hbs h.2
      exact ⟨by rw [h.1, heq], hr⟩

/-- C9 amended: the fingerprint's hash input is a pure function of the four
    fields (so equal tuples always yield equal digests), and the encoding is
    injective as long as the first three fields do not contain the separator
    character `|`; it is not injective in general, since a free-text field
    such as the title can contain `|`
    (see `hash_input_field_confusion_counterexample`). -/
theorem hash_input_injective_separator_free
    (t1 d1 i1 c1 t2 d2 i2 c2 : String)
    (ht1 : '|' ∉ t1.data) (ht2 : '|' ∉ t2.data)
    (hd1 : '|' ∉ d1.data) (hd2 : '|' ∉ d2.data)
    (hi1 : '|' ∉ i1.data) (hi2 : '|' ∉ i2.data) :
    newsEventHashInput t1 d1 i1 c1 = newsEventHashInput t2 d2 i2 c2 ↔
      (t1 = t2 ∧ d1 = d2 ∧ i1 = i2 ∧ c1 = c2) := by
  constructor
  · intro h
    unfold newsEventHashInput at h
    have hdata := congrArg String.data h
    simp only [String.data_append, List.append_assoc,
      List.singleton_append] at hdata
    obtain ⟨he1, hrest1⟩ := append_sep_cancel ht1 ht2 hdata
    obtain ⟨he2, hrest2⟩ := append_sep_cancel hd1 hd2 hrest1
    obtain ⟨he3, hrest3⟩ := append_sep_cancel hi1 hi2 hrest2
    exact ⟨string_eq_of_data_eq he1, string_eq_of_data_eq he2,
           string_eq_of_data_eq he3, string_eq_of_data_eq hrest3⟩
  · rintro ⟨rfl, rfl, rfl, rfl⟩
    rfl

/-- Witness for `hash_input_injective_separator_free` at concrete
    separator-free fields: equal hash inputs force equal tuples. -/
theorem hash_input_injective_separator_free_witness :
    newsEventHashInput "FOMC" "2025-11-16 16:45:00" "HIGH" "USD" =
        newsEventHashInput "FOMC" "2025-11-16 16:45:00" "HIGH" "USD" ↔
      ("FOMC" = "FOMC" ∧ "2025-11-16 16:45:00" = "2025-11-16 16:45:00" ∧
        "HIGH" = "HIGH" ∧ "USD" = "USD") :=
  hash_input_injective_separator_free
    "FOMC" "2025-11-16 16:45:00" "HIGH" "USD"
    "FOMC" "2025-11-16 16:45:00" "HIGH" "USD"
    (by decide) (by decide) (by decide) (by decide) (by decide) (by decide)

/-- When the process offset does not change across the five-minute shift
    (i.e. the scan does not straddle a timezone transition), the two window
    targets are exactly five minutes apart. -/
theorem scannerFiveMinTarget_eq_onDrop_add (now : Int) (off : Int → Int)
    (hoff : off (now + 300) = off now) :
    scannerFiveMinTarget now off = scannerOnDropTarget now off + 300 := by
  unfold scannerFiveMinTarget scannerOnDropTarget
  rw [scannerNaiveTarget_eq, scannerNaiveTarget_eq, hoff]
  omega

/-- C4: for every stored event, when the scan's naive "now" (the on-drop
    target, rounded to the minute) is exactly five minutes before the event's
    stored naive timestamp, the event is returned by the five-minute query and
    not by the on-drop query; when it equals the stored timestamp, the event
    is returned by the on-drop query and not the five-minute one; when it is
    neither, the event is returned by neither.  The side condition `hoff`
    states that the scan does not straddle a timezone transition, so the two
    targets the code derives from the instant are five minutes apart. -/
theorem five_minute_window_classification (db : List NewsEvent) (now : Int)
    (off : Int → Int) (e : NewsEvent) (he : e ∈ db)
    (hoff : off (now + 300) = off now) :
    (e.date = scannerOnDropTarget now off + 300 →
      e ∈ fiveMinuteEvents db now off ∧ e ∉ onDropEvents db now off) ∧
    (e.date = scannerOnDropTarget now off →
      e ∈ onDropEvents db now off ∧ e ∉ fiveMinuteEvents db now off) ∧
    (e.date ≠ scannerOnDropTarget now off + 300 →
      e.date ≠ scannerOnDropTarget now off →
      e ∉ fiveMinuteEvents db now off ∧ e ∉ onDropEvents db now off) := by
  have h5 := scannerFiveMinTarget_eq_onDrop_add now off hoff
  unfold fiveMinuteEvents onDropEvents
  simp only [List.mem_filter, beq_iff_eq, h5]
  refine ⟨?_, ?_, ?_⟩
  · intro h
    exact ⟨⟨he, h⟩, fun hc => by omega⟩
  · intro h
    exact ⟨⟨he, h⟩, fun hc => by omega⟩
  · intro h1 h2
    exact ⟨fun hc => h1 hc.2, fun hc => h2 hc.2⟩

/-- Witness for `five_minute_window_classification`: an event stored at naive
    2025-03-10 13:30:00; with the scan's naive "now" at 13:25:00 it is in the
    five-minute window and not the on-drop window. -/
theorem five_minute_window_classification_witness :
    (⟨"e1", "CPI", Currency.USD, 1741613400, Impact.HIGH, "", "", none,
        false, "ForexFactory"⟩ : NewsEvent) ∈
      fiveMinuteEvents
        [⟨"e1", "CPI", Currency.USD, 1741613400, Impact.HIGH, "", "", none,
          false, "ForexFactory"⟩] 1741613100 (fun _ => 0) ∧
    (⟨"e1", "CPI", Currency.USD, 1741613400, Impact.HIGH, "", "", none,
        false, "ForexFactory"⟩ : NewsEvent) ∉
      onDropEvents
        [⟨"e1", "CPI", Currency.USD, 1741613400, Impact.HIGH, "", "", none,
          false, "ForexFactory"⟩] 1741613100 (fun _ => 0) :=
  (five_minute_window_classification
    [⟨"e1", "CPI", Currency.USD, 1741613400, Impact.HIGH, "", "", none,
      false, "ForexFactory"⟩] 1741613100 (fun _ => 0)
    ⟨"e1", "CPI", Currency.USD, 1741613400, Impact.HIGH, "", "", none,
      false, "ForexFactory"⟩ (by decide) (by decide)).1 (by decide)

/-- The update branch of the upsert preserves the identity fields, so the
    identity predicate is invariant under it. -/
theorem identityMatches_update (e : NewsEvent) (title : String) (date : Int)
    (impact : Impact) (currency : Currency) (f p : String) :
    identityMatches { e with forecast := f, previous := p }
        title date impact currency =
      identityMatches e title date impact currency := rfl

/-- Upsert on an absent identity appends the created row. -/
theorem upsertNewsEvent_absent (db : List NewsEvent) (title : String)
    (date : Int) (impact : Impact) (currency : Currency) (f p newId : String)
    (h : db.filter (fun e => identityMatches e title date impact currency) = []) :
    upsertNewsEvent db title date impact currency f p newId =
      db ++ [⟨newId, title, currency, date, impact, f, p, none, false,
             "ForexFactory"⟩] := by
  unfold upsertNewsEvent
  rw [if_neg]
  intro hany
  rw [List.any_eq_true] at hany
  obtain ⟨x, hx, hpx⟩ := hany
  rw [List.filter_eq_nil_iff] at h
  exact h x hx hpx

/-- Upsert on a present identity maps the update over the store. -/
theorem upsertNewsEvent_present (db : List NewsEvent) (title : String)
    (date : Int) (impact : Impact) (currency : Currency) (f p newId : String)
    (r : NewsEvent)
    (h : r ∈ db) (hr : identityMatches r title date impact currency = true) :
    upsertNewsEvent db title date impact currency f p newId =
      db.map (fun e =>
        if identityMatches e title date impact currency then
          { e with forecast := f, previous := p }
        else e) := by
  unfold upsertNewsEvent
  rw [if_pos]
  rw [List.any_eq_true]
  exact ⟨r, h, hr⟩

/-- Filtering the identity after the update-map keeps exactly the updated
    matching rows. -/
theorem filter_map_update (db : List NewsEvent) (title : String) (date : Int)
    (impact : Impact) (currency : Currency) (f p : String) :
    (db.map (fun e =>
        if identityMatches e title date impact currency then
          { e with forecast := f, previous := p }
        else e)).filter (fun e => identityMatches e title date impact currency) =
      (db.filter (fun e => identityMatches e title date impact currency)).map
        (fun e => { e with forecast := f, previous := p }) := by
  induction db with
  | nil => rfl
  | cons a as ih =>
    by_cases ha : identityMatches a title date impact currency = true
    · simp only [List.map_cons, List.filter_cons, if_pos ha,
        identityMatches_update, ha, ite_true, ih]
    · have ha2 : identityMatches a title date impact currency = false := by
        revert ha
        cases identityMatches a title date impact currency <;> simp
      simp [List.filter_cons, ha2, ih]

/-- C1: ingesting the same raw event twice (same title, timestamp, impact,
    currency) yields exactly one stored row for that identity tuple; its
    forecast and previous come from the latest ingestion, while a previously
    stored row's `actual` value and `isProcessed` flag are untouched (and a
    freshly created row has a null `actual` and an unset flag).  The two
    hypotheses split on whether the identity was present before, and each
    asserts the filtered store equals an explicit singleton. -/
theorem upsert_idempotent_identity (db : List NewsEvent) (title : String)
    (date : Int) (impact : Impact) (currency : Currency)
    (f1 p1 f2 p2 id1 id2 : String) :
    (db.filter (fun e => identityMatches e title date impact currency) = [] →
      ((upsertNewsEvent (upsertNewsEvent db title date impact currency f1 p1 id1)
          title date impact currency f2 p2 id2).filter
          (fun e => identityMatches e title date impact currency)) =
        [⟨id1, title, currency, date, impact, f2, p2, none, false,
          "ForexFactory"⟩]) ∧
    (∀ r, db.filter (fun e => identityMatches e title date impact currency) = [r] →
      ((upsertNewsEvent (upsertNewsEvent db title date impact currency f1 p1 id1)
          title date impact currency f2 p2 id2).filter
          (fun e => identityMatches e title date impact currency)) =
        [{ r with forecast := f2, previous := p2 }]) := by
  have hnew : identityMatches
      ⟨id1, title, currency, date, impact, f1, p1, none, false, "ForexFactory"⟩
      title date impact currency = true := by
    unfold identityMatches
    simp
  constructor
  · intro h
    rw [upsertNewsEvent_absent db title date impact currency f1 p1 id1 h]
    rw [upsertNewsEvent_present _ title date impact currency f2 p2 id2
      ⟨id1, title, currency, date, impact, f1, p1, none, false, "ForexFactory"⟩
      (by simp) hnew]
    rw [filter_map_update, List.filter_append, h, List.nil_append]
    simp only [List.filter_cons, hnew, ite_true, List.filter_nil, List.map_cons,
      List.map_nil]
  · intro r h
    have hrmem : r ∈ db.filter (fun e => identityMatches e title date impact currency) := by
      rw [h]; exact List.mem_singleton.mpr rfl
    rw [List.mem_filter] at hrmem
    rw [upsertNewsEvent_present db title date impact currency f1 p1 id1 r
      hrmem.1 hrmem.2]
    have hr1mem : { r with forecast := f1, previous := p1 } ∈
        db.map (fun e =>
          if identityMatches e title date impact currency then
            { e with forecast := f1, previous := p1 }
          else e) := by
      rw [List.mem_map]
      exact ⟨r, hrmem.1, by rw [if_pos hrmem.2]⟩
    rw [upsertNewsEvent_present _ title date impact currency f2 p2 id2
      { r with forecast := f1, previous := p1 } hr1mem
      (by rw [identityMatches_update]; exact hrmem.2)]
    rw [filter_map_update, filter_map_update, h]
    rfl

/-- Witness for `upsert_idempotent_identity`: a store holding one row for the
    identity whose `actual` was set and whose flag was flipped by the actuals
    checker; re-ingesting twice leaves one row with the latest
    forecast/previous and the old `actual`/flag. -/
theorem upsert_idempotent_identity_witness :
    ((upsertNewsEvent (upsertNewsEvent
        [⟨"e7", "CPI", Currency.USD, 1741613400, Impact.HIGH, "2.9%", "3.0%",
          some "3.1%", true, "ForexFactory"⟩]
        "CPI" 1741613400 Impact.HIGH Currency.USD "3.0%" "3.0%" "n1")
        "CPI" 1741613400 Impact.HIGH Currency.USD "3.2%" "3.1%" "n2").filter
        (fun e => identityMatches e "CPI" 1741613400 Impact.HIGH Currency.USD)) =
      [⟨"e7", "CPI", Currency.USD, 1741613400, Impact.HIGH, "3.2%", "3.1%",
        some "3.1%", true, "ForexFactory"⟩] :=
  (upsert_idempotent_identity
    [⟨"e7", "CPI", Currency.USD, 1741613400, Impact.HIGH, "2.9%", "3.0%",
      some "3.1%", true, "ForexFactory"⟩]
    "CPI" 1741613400 Impact.HIGH Currency.USD "3.0%" "3.0%" "3.2%" "3.1%"
    "n1" "n2").2
    ⟨"e7", "CPI", Currency.USD, 1741613400, Impact.HIGH, "2.9%", "3.0%",
      some "3.1%", true, "ForexFactory"⟩ (by decide)

/-- A publish loop none of whose calls throws publishes everything and
    completes. -/
theorem publishLoop_all_ok (payloads : List (List (String × String)))
    (pf : Nat → Bool) (n : Nat) (h : ∀ i, pf i = false) :
    publishLoop payloads pf n = (payloads, true) := by
  induction payloads generalizing n with
  | nil => rfl
  | cons p rest ih =>
    unfold publishLoop
    rw [h n, ih (n + 1)]
    simp

/-- A publish loop one of whose calls throws does not complete. -/
theorem publishLoop_fails (payloads : List (List (String × String)))
    (pf : Nat → Bool) (n : Nat)
    (h : ∃ i, i < payloads.length ∧ pf (n + i) = true) :
    (publishLoop payloads pf n).2 = false := by
  induction payloads generalizing n with
  | nil => obtain ⟨i, hi, _⟩ := h; simp at hi
  | cons p rest ih =>
    obtain ⟨i, hi, hf⟩ := h
    unfold publishLoop
    by_cases h0 : pf n = true
    · rw [if_pos h0]
    · rw [if_neg h0]
      have hipos : i ≠ 0 := by
        intro h0'
        rw [h0', Nat.add_zero] at hf
        exact h0 hf
      refine ih (n + 1) ⟨i - 1, ?_, ?_⟩
      · simp at hi
        omega
      · have : n + 1 + (i - 1) = n + i := by omega
        rw [this]
        exact hf

/-- C6: the dispatch gate is at-most-once per session.  With a fresh key, a
    nonempty match set and no publish failures, the first `sendAlert` call
    publishes one message per matching subscription; below the bounded-size
    threshold the key is then tracked and a second call for the same key
    publishes nothing and leaves the state unchanged; past the threshold the
    cache is cleared wholesale and the same key is published again on the
    next call; the clear happens exactly when the tracked-key count exceeds
    1000. -/
theorem dispatch_gate_at_most_once (s : List String)
    (allConfigs : List NewsAlertConfig) (pf : Nat → Bool) (e : NewsEvent)
    (alertType : AlertType)
    (hfresh : s.contains (alertKey e alertType) = false)
    (hmatch : (matchingAlertConfigs allConfigs alertType e.currency
      e.impact).isEmpty = false)
    (hpub : ∀ i, pf i = false) :
    (sendAlert s allConfigs false pf e alertType).published =
      (matchingAlertConfigs allConfigs alertType e.currency e.impact).map
        (buildAlertPayload e alertType) ∧
    (s.length + 1 ≤ 1000 →
      (sendAlert s allConfigs false pf e alertType).sentAlerts =
        s ++ [alertKey e alertType] ∧
      sendAlert (s ++ [alertKey e alertType]) allConfigs false pf e alertType =
        ⟨s ++ [alertKey e alertType], []⟩) ∧
    (1000 < s.length + 1 →
      (sendAlert s allConfigs false pf e alertType).sentAlerts = [] ∧
      (sendAlert [] allConfigs false pf e alertType).published ≠ []) ∧
    (∀ l : List String,
      (1000 < l.length → cleanupSentAlerts l = []) ∧
      (l.length ≤ 1000 → cleanupSentAlerts l = l)) := by
  have hloop := publishLoop_all_ok
    ((matchingAlertConfigs allConfigs alertType e.currency e.impact).map
      (buildAlertPayload e alertType)) pf 0 hpub
  have hmain : sendAlert s allConfigs false pf e alertType =
      ⟨cleanupSentAlerts (s ++ [alertKey e alertType]),
       (matchingAlertConfigs allConfigs alertType e.currency e.impact).map
         (buildAlertPayload e alertType)⟩ := by
    unfold sendAlert
    rw [if_neg (by rw [hfresh]; exact Bool.false_ne_true),
        if_neg Bool.false_ne_true,
        if_neg (by rw [hmatch]; exact Bool.false_ne_true),
        hloop]
    simp
  have hmatchne : (matchingAlertConfigs allConfigs alertType e.currency
      e.impact) ≠ [] := by
    intro hnil
    rw [hnil] at hmatch
    simp at hmatch
  refine ⟨?_, ?_, ?_, ?_⟩
  · rw [hmain]
  · intro hlen
    have hclean : cleanupSentAlerts (s ++ [alertKey e alertType]) =
        s ++ [alertKey e alertType] := by
      unfold cleanupSentAlerts
      rw [if_neg]
      simp
      omega
    constructor
    · rw [hmain]
      simp only
      exact hclean
    · unfold sendAlert
      rw [if_pos]
      simp [alertKey]
  · intro hlen
    constructor
    · rw [hmain]
      simp only
      unfold cleanupSentAlerts
      rw [if_pos]
      simp
      omega
    · have hloop2 := publishLoop_all_ok
        ((matchingAlertConfigs allConfigs alertType e.currency e.impact).map
          (buildAlertPayload e alertType)) pf 0 hpub
      unfold sendAlert
      rw [if_neg (by simp), if_neg Bool.false_ne_true,
          if_neg (by rw [hmatch]; exact Bool.false_ne_true), hloop2]
      simp only
      intro hmap
      exact hmatchne (List.map_eq_nil_iff.mp hmap)
  · intro l
    constructor
    · intro hl
      unfold cleanupSentAlerts
      rw [if_pos]
      simpa using hl
    · intro hl
      unfold cleanupSentAlerts
      rw [if_neg]
      simp
      omega

/-- Witness for `dispatch_gate_at_most_once`: with an empty cache, a single
    all-matching subscription and reliable publishing, the first call
    publishes one message and tracks the key, and the second call for the
    same key publishes nothing. -/
theorem dispatch_gate_at_most_once_witness :
    (sendAlert [] [⟨"s1", "c1", [], [], [AlertType.ON_NEWS_DROP]⟩]
        false (fun _ => false)
        ⟨"e1", "CPI", Currency.USD, 1741613400, Impact.HIGH, "", "", none,
          false, "ForexFactory"⟩ AlertType.ON_NEWS_DROP).published =
      (matchingAlertConfigs [⟨"s1", "c1", [], [], [AlertType.ON_NEWS_DROP]⟩]
        AlertType.ON_NEWS_DROP Currency.USD Impact.HIGH).map
        (buildAlertPayload
          ⟨"e1", "CPI", Currency.USD, 1741613400, Impact.HIGH, "", "", none,
            false, "ForexFactory"⟩ AlertType.ON_NEWS_DROP) ∧
    ([] : List String).length + 1 ≤ 1000 ∧
    (sendAlert [] [⟨"s1", "c1", [], [], [AlertType.ON_NEWS_DROP]⟩]
        false (fun _ => false)
        ⟨"e1", "CPI", Currency.USD, 1741613400, Impact.HIGH, "", "", none,
          false, "ForexFactory"⟩ AlertType.ON_NEWS_DROP).sentAlerts =
      [] ++ [alertKey ⟨"e1", "CPI", Currency.USD, 1741613400, Impact.HIGH,
        "", "", none, false, "ForexFactory"⟩ AlertType.ON_NEWS_DROP] ∧
    sendAlert ([] ++ [alertKey ⟨"e1", "CPI", Currency.USD, 1741613400,
        Impact.HIGH, "", "", none, false, "ForexFactory"⟩
        AlertType.ON_NEWS_DROP])
        [⟨"s1", "c1", [], [], [AlertType.ON_NEWS_DROP]⟩] false (fun _ => false)
        ⟨"e1", "CPI", Currency.USD, 1741613400, Impact.HIGH, "", "", none,
          false, "ForexFactory"⟩ AlertType.ON_NEWS_DROP =
      ⟨[] ++ [alertKey ⟨"e1", "CPI", Currency.USD, 1741613400, Impact.HIGH,
        "", "", none, false, "ForexFactory"⟩ AlertType.ON_NEWS_DROP], []⟩ := by
  have h := dispatch_gate_at_most_once []
    [⟨"s1", "c1", [], [], [AlertType.ON_NEWS_DROP]⟩] (fun _ => false)
    ⟨"e1", "CPI", Currency.USD, 1741613400, Impact.HIGH, "", "", none,
      false, "ForexFactory"⟩ AlertType.ON_NEWS_DROP
    (by decide) (by decide) (fun _ => rfl)
  exact ⟨h.1, by decide, (h.2.1 (by decide)).1, (h.2.1 (by decide)).2⟩

/-- C10: the dispatch key enters the in-memory cache only after at least one
    subscription matched and every publish call returned without throwing.
    If no subscription matches, the query throws, or any publish throws, the
    cache is unchanged, the key stays untracked and a later invocation for
    the same key is not suppressed; on full success the key becomes tracked
    (modulo the bounded-size cleanup). -/
theorem gate_marking_atomicity (s : List String)
    (allConfigs : List NewsAlertConfig) (queryFails : Bool) (pf : Nat → Bool)
    (e : NewsEvent) (alertType : AlertType)
    (hfresh : s.contains (alertKey e alertType) = false) :
    ((matchingAlertConfigs allConfigs alertType e.currency e.impact).isEmpty
        = true →
      sendAlert s allConfigs queryFails pf e alertType =
        ⟨s, (sendAlert s allConfigs queryFails pf e alertType).published⟩) ∧
    (queryFails = true →
      sendAlert s allConfigs queryFails pf e alertType = ⟨s, []⟩) ∧
    ((∃ i, i < (matchingAlertConfigs allConfigs alertType e.currency
        e.impact).length ∧ pf i = true) →
      (sendAlert s allConfigs queryFails pf e alertType).sentAlerts = s) ∧
    ((sendAlert s allConfigs queryFails pf e alertType).sentAlerts = s →
      ((sendAlert s allConfigs queryFails pf e alertType).sentAlerts).contains
        (alertKey e alertType) = false) ∧
    ((matchingAlertConfigs allConfigs alertType e.currency e.impact).isEmpty
        = false →
      queryFails = false → (∀ i, pf i = false) →
      (sendAlert s allConfigs queryFails pf e alertType).sentAlerts =
        cleanupSentAlerts (s ++ [alertKey e alertType])) := by
  refine ⟨?_, ?_, ?_, ?_, ?_⟩
  · intro hempty
    unfold sendAlert
    rw [if_neg (by rw [hfresh]; exact Bool.false_ne_true)]
    by_cases hq : queryFails = true
    · rw [if_pos hq]
    · rw [if_neg hq, if_pos hempty]
  · intro hq
    unfold sendAlert
    rw [if_neg (by rw [hfresh]; exact Bool.false_ne_true), if_pos hq]
  · intro hex
    have hfail := publishLoop_fails
      ((matchingAlertConfigs allConfigs alertType e.currency e.impact).map
        (buildAlertPayload e alertType)) pf 0
      (by obtain ⟨i, hi, hf⟩ := hex
          exact ⟨i, by simpa using hi, by simpa using hf⟩)
    unfold sendAlert
    rw [if_neg (by rw [hfresh]; exact Bool.false_ne_true)]
    by_cases hq : queryFails = true
    · rw [if_pos hq]
    · rw [if_neg hq]
      by_cases hempty : (matchingAlertConfigs allConfigs alertType e.currency
          e.impact).isEmpty = true
      · rw [if_pos hempty]
      · rw [if_neg hempty, if_neg (by rw [hfail]; exact Bool.false_ne_true)]
  · intro hsame
    rw [hsame]
    exact hfresh
  · intro hempty hq hpub
    have hloop := publishLoop_all_ok
      ((matchingAlertConfigs allConfigs alertType e.currency e.impact).map
        (buildAlertPayload e alertType)) pf 0 hpub
    unfold sendAlert
    rw [if_neg (by rw [hfresh]; exact Bool.false_ne_true), hq,
        if_neg Bool.false_ne_true,
        if_neg (by rw [hempty]; exact Bool.false_ne_true), hloop]
    simp

/-- Witness for `gate_marking_atomicity`: with a fresh key and a failing
    publish call, the cache is unchanged and the key remains untracked. -/
theorem gate_marking_atomicity_witness :
    (sendAlert [] [⟨"s1", "c1", [], [], [AlertType.ON_NEWS_DROP]⟩]
        false (fun _ => true)
        ⟨"e1", "CPI", Currency.USD, 1741613400, Impact.HIGH, "", "", none,
          false, "ForexFactory"⟩ AlertType.ON_NEWS_DROP).sentAlerts =
      ([] : List String) :=
  (gate_marking_atomicity [] [⟨"s1", "c1", [], [], [AlertType.ON_NEWS_DROP]⟩]
    false (fun _ => true)
    ⟨"e1", "CPI", Currency.USD, 1741613400, Impact.HIGH, "", "", none,
      false, "ForexFactory"⟩ AlertType.ON_NEWS_DROP
    (by decide)).2.2.1 ⟨0, by decide, rfl⟩

/-- C8 counterexample: the published payload's field names are not
    `{title, currency, impact, timestamp, forecast, previous, alertClass,
    channelId, serverId}` — at a concrete event and subscription the keys
    are `country`, `date` and `alertType` instead of `currency`, `timestamp`
    and `alertClass`. -/
theorem payload_field_names_counterexample :
    (buildAlertPayload
        ⟨"e1", "CPI", Currency.USD, 1763311500, Impact.HIGH, "3.1%", "3.0%",
          none, false, "ForexFactory"⟩
        AlertType.ON_NEWS_DROP
        ⟨"s1", "c1", [], [], [AlertType.ON_NEWS_DROP]⟩).map Prod.fst ≠
      ["title", "currency", "impact", "timestamp", "forecast", "previous",
       "alertClass", "channelId", "serverId"] := by
  decide

/-- C8 amended: for every fired event, exactly one message is published per
    matching subscription (none per non-matching one), and each payload
    carries exactly the fields `{title, country, impact, date (ISO string),
    forecast, previous, alertType, channelId, serverId}` with those names,
    `channelId`/`serverId` identifying the matched subscription's target and
    `date` serializing the stored naive timestamp. -/
theorem queue_message_one_per_subscription (s : List String)
    (allConfigs : List NewsAlertConfig) (pf : Nat → Bool) (e : NewsEvent)
    (alertType : AlertType)
    (hfresh : s.contains (alertKey e alertType) = false)
    (hpub : ∀ i, pf i = false) :
    (sendAlert s allConfigs false pf e alertType).published =
      (matchingAlertConfigs allConfigs alertType e.currency e.impact).map
        (buildAlertPayload e alertType) ∧
    ∀ c, (buildAlertPayload e alertType c).map Prod.fst =
        ["title", "country", "impact", "date", "forecast", "previous",
         "alertType", "channelId", "serverId"] ∧
      (buildAlertPayload e alertType c).lookup "channelId" = some c.channelId ∧
      (buildAlertPayload e alertType c).lookup "serverId" = some c.serverId ∧
      (buildAlertPayload e alertType c).lookup "date" = some (formatISO e.date) := by
  constructor
  · unfold sendAlert
    rw [if_neg (by rw [hfresh]; exact Bool.false_ne_true),
        if_neg Bool.false_ne_true]
    by_cases hempty : (matchingAlertConfigs allConfigs alertType e.currency
        e.impact).isEmpty = true
    · rw [if_pos hempty]
      rw [List.isEmpty_iff] at hempty
      rw [hempty]
      rfl
    · have hloop := publishLoop_all_ok
        ((matchingAlertConfigs allConfigs alertType e.currency e.impact).map
          (buildAlertPayload e alertType)) pf 0 hpub
      rw [if_neg hempty, hloop]
      simp
  · intro c
    refine ⟨rfl, ?_, ?_, ?_⟩ <;> rfl

/-- Witness for `queue_message_one_per_subscription` at an empty cache, one
    matching subscription and reliable publishing. -/
theorem queue_message_one_per_subscription_witness :
    (sendAlert [] [⟨"s1", "c1", [], [], [AlertType.ON_NEWS_DROP]⟩]
        false (fun _ => false)
        ⟨"e1", "CPI", Currency.USD, 1763311500, Impact.HIGH, "3.1%", "3.0%",
          none, false, "ForexFactory"⟩ AlertType.ON_NEWS_DROP).published =
      (matchingAlertConfigs [⟨"s1", "c1", [], [], [AlertType.ON_NEWS_DROP]⟩]
        AlertType.ON_NEWS_DROP Currency.USD Impact.HIGH).map
        (buildAlertPayload
          ⟨"e1", "CPI", Currency.USD, 1763311500, Impact.HIGH, "3.1%", "3.0%",
            none, false, "ForexFactory"⟩ AlertType.ON_NEWS_DROP) :=
  (queue_message_one_per_subscription []
    [⟨"s1", "c1", [], [], [AlertType.ON_NEWS_DROP]⟩] (fun _ => false)
    ⟨"e1", "CPI", Currency.USD, 1763311500, Impact.HIGH, "3.1%", "3.0%",
      none, false, "ForexFactory"⟩ AlertType.ON_NEWS_DROP
    (by decide) (fun _ => rfl)).1

theorem fetchLoop_cons_ok (db db2 : List NewsEvent) (item : RawNewsItem)
    (rest : List RawNewsItem)
    (h : storeNewsItemBody db item = .ok (db2, true)) :
    fetchLoop db (item :: rest) =
      ((fetchLoop db2 rest).1, (fetchLoop db2 rest).2.1 + 1,
       (fetchLoop db2 rest).2.2) := by
  conv_lhs => unfold fetchLoop
  rw [h]

theorem upsertAll_cons_ok (db db2 : List NewsEvent) (flag : Bool)
    (item : RawNewsItem) (rest : List RawNewsItem)
    (h : storeNewsItemBody db item = .ok (db2, flag)) :
    upsertAll db (item :: rest) = upsertAll db2 rest := by
  conv_lhs => unfold upsertAll
  rw [h]

/-- The body of a mapping item succeeds and upserts. -/
theorem storeNewsItemBody_maps (db : List NewsEvent) (item : RawNewsItem)
    (h : itemMaps item) :
    ∃ cur imp,
      parseCurrencyStr item.country = some cur ∧
      parseImpactStr item.impact = some imp ∧
      storeNewsItemBody db item = .ok (upsertNewsEvent db item.title
        (normalizeToNaiveNY
          (parseOffsetTimestamp item.dateWall item.dateOffsetMinutes))
        imp cur (item.forecast.getD "") (item.previous.getD "")
        item.newId, true) := by
  obtain ⟨hc, hi⟩ := h
  rw [Option.isSome_iff_exists] at hc hi
  obtain ⟨cur, hcur⟩ := hc
  obtain ⟨imp, himp⟩ := hi
  refine ⟨cur, imp, hcur, himp, ?_⟩
  unfold storeNewsItemBody
  rw [hcur, himp]

/-- A loop over items that all map upserts each one and skips none. -/
theorem fetchLoop_all_maps (db : List NewsEvent) (items : List RawNewsItem)
    (h : ∀ item ∈ items, itemMaps item) :
    fetchLoop db items = (upsertAll db items, items.length, 0) := by
  induction items generalizing db with
  | nil => rfl
  | cons item rest ih =>
    obtain ⟨cur, imp, hcur, himp, hbody⟩ :=
      storeNewsItemBody_maps db item (h item (List.mem_cons_self item rest))
    rw [fetchLoop_cons_ok db _ item rest hbody,
        upsertAll_cons_ok db _ true item rest hbody,
        ih _ (fun it hit => h it (List.mem_cons_of_mem item hit))]
    simp

/-- A non-mapping head is skipped and counted, leaving the store alone. -/
theorem fetchLoop_bad_head (db : List NewsEvent) (bad : RawNewsItem)
    (rest : List RawNewsItem) (hbad : ¬ itemMaps bad) :
    fetchLoop db (bad :: rest) =
      ((fetchLoop db rest).1, (fetchLoop db rest).2.1,
       (fetchLoop db rest).2.2 + 1) := by
  unfold itemMaps at hbad
  cases hc : parseCurrencyStr bad.country with
  | none =>
    have hbody : storeNewsItemBody db bad = .ok (db, false) := by
      unfold storeNewsItemBody
      rw [hc]
    conv_lhs => unfold fetchLoop
    rw [hbody]
  | some cur =>
    cases hi : parseImpactStr bad.impact with
    | none =>
      have hbody : storeNewsItemBody db bad =
          .error "invalid input value for enum Impact" := by
        unfold storeNewsItemBody
        rw [hc, hi]
      conv_lhs => unfold fetchLoop
      rw [hbody]
    | some imp =>
      exact absurd ⟨by rw [hc]; rfl, by rw [hi]; rfl⟩ hbad

/-- C7: a batch in which one item's currency or impact string does not map to
    a known enum value still upserts the other N−1 items, counts exactly one
    skip, and never aborts: the per-item try/catch makes the loop a total
    function whose result is the same store a loop over the N−1 valid items
    produces. -/
theorem skip_dont_abort_batch (db : List NewsEvent)
    (pre post : List RawNewsItem) (bad : RawNewsItem)
    (hgood : ∀ item ∈ pre ++ post, itemMaps item)
    (hbad : ¬ itemMaps bad) :
    fetchLoop db (pre ++ bad :: post) =
      (upsertAll db (pre ++ post), (pre ++ post).length, 1) := by
  induction pre generalizing db with
  | nil =>
    simp only [List.nil_append]
    rw [fetchLoop_bad_head db bad post hbad,
        fetchLoop_all_maps db post (by simpa using hgood)]
  | cons item pre2 ih =>
    obtain ⟨cur, imp, hcur, himp, hbody⟩ :=
      storeNewsItemBody_maps db item (hgood item (by simp))
    simp only [List.cons_append]
    rw [fetchLoop_cons_ok db _ item _ hbody,
        upsertAll_cons_ok db _ true item _ hbody,
        ih _ (fun it hit => hgood it (by simp at hit ⊢; tauto))]
    simp

/-- Witness for `skip_dont_abort_batch`: a three-item batch whose middle item
    has the unmappable currency string "XXX"; the other two rows are
    upserted, one skip is counted, and the loop returns normally. -/
theorem skip_dont_abort_batch_witness :
    fetchLoop []
      ([⟨"CPI", "USD", ⟨2025, 11, 16, 16, 45, 0⟩, -300, "HIGH", none, none,
         "n1"⟩] ++
        ⟨"Rate", "XXX", ⟨2025, 11, 16, 17, 0, 0⟩, -300, "HIGH", none, none,
         "n2"⟩ ::
        [⟨"GDP", "EUR", ⟨2025, 11, 17, 8, 30, 0⟩, -300, "LOW", none, none,
         "n3"⟩]) =
      (upsertAll []
        ([⟨"CPI", "USD", ⟨2025, 11, 16, 16, 45, 0⟩, -300, "HIGH", none, none,
           "n1"⟩] ++
          [⟨"GDP", "EUR", ⟨2025, 11, 17, 8, 30, 0⟩, -300, "LOW", none, none,
           "n3"⟩]), 2, 1) :=
  skip_dont_abort_batch []
    [⟨"CPI", "USD", ⟨2025, 11, 16, 16, 45, 0⟩, -300, "HIGH", none, none, "n1"⟩]
    [⟨"GDP", "EUR", ⟨2025, 11, 17, 8, 30, 0⟩, -300, "LOW", none, none, "n3"⟩]
    ⟨"Rate", "XXX", ⟨2025, 11, 16, 17, 0, 0⟩, -300, "HIGH", none, none, "n2"⟩
    (by intro item hitem
        simp only [List.cons_append, List.nil_append, List.mem_cons,
          List.mem_singleton] at hitem
        rcases hitem with rfl | rfl | h
        · exact ⟨by decide, by decide⟩
        · exact ⟨by decide, by decide⟩
        · cases h)
    (by intro hmap
        exact absurd hmap.1 (by decide))

/-- C4 counterexample: at the 2025 DST fall-back edge the claim fails.  At
    scan instant 2025-11-02T05:58:00Z with the process in America/New_York,
    the scan's naive "now" is 2025-11-02 01:58:00 (EDT), exactly five minutes
    before an event stored at naive 2025-11-02 02:03:00 (02:03 EST); but the
    five-minute query target is built from the instant five minutes later,
    whose New-York wall clock is 01:03:00 (EST), so the event is not
    classified FIVE_MINUTES_BEFORE. -/
theorem five_minute_window_dst_edge_counterexample :
    (⟨"e9", "ISM", Currency.USD, 1762048980, Impact.HIGH, "", "", none,
        false, "ForexFactory"⟩ : NewsEvent).date =
      scannerOnDropTarget 1762063080 nyOffsetSecs + 300 ∧
    (⟨"e9", "ISM", Currency.USD, 1762048980, Impact.HIGH, "", "", none,
        false, "ForexFactory"⟩ : NewsEvent) ∉
      fiveMinuteEvents
        [⟨"e9", "ISM", Currency.USD, 1762048980, Impact.HIGH, "", "", none,
          false, "ForexFactory"⟩] 1762063080 nyOffsetSecs := by
  constructor
  · decide
  · decide
